import Mathlib

/-!
Verification development for the ProviderRegistry repository.

The definitions below are a shallow embedding of the in-memory storage layer
(`server/storage.ts`, types from `shared/schema.ts`):

* JS numbers holding ratings and distances are modelled as rationals,
  review counts, ids, page and limit as naturals;
* the relevance score uses `Real.log`, the real logarithm, for `Math.log`;
* nullable columns become `Option`; JS truthiness of a possibly-null boolean
  is `Option.getD false`, of a possibly-null string a `match`;
* the `Map<number, Provider>` is an association list in insertion order,
  with `Map.set` replacing in place (keeping position) or appending;
* `Array.prototype.sort` (stable, and sorted with respect to any consistent
  comparator `c` in the sense that `c a b ≤ 0` holds for adjacent elements)
  is modelled by `List.insertionSort`, a stable sort, applied to the relation
  "comparator value is not positive";
* `Array.prototype.slice (start, stop)` becomes `jsSlice`.
-/

namespace ProviderRegistry

/-- Office address object from `officeAddressSchema` in `shared/schema.ts`. -/
structure OfficeAddress where
  street : String
  city : String
  state : String
  zipCode : String
  latitude : Option ℚ
  longitude : Option ℚ
deriving DecidableEq

/-- Education entry from `educationSchema`. -/
structure EducationEntry where
  degree : String
  institution : String
  graduationYear : String
deriving DecidableEq

/-- Certification entry from `certificationSchema`. -/
structure CertificationEntry where
  name : String
  organization : String
  year : Option String
deriving DecidableEq

/-- Insert payload for a provider (`insertProviderSchema`: the `providers`
columns without `id`; `insurances`, `languages`, `education`,
`certifications`, `officeAddress` and `officeHours` are required there,
columns with defaults or without `notNull` stay optional). -/
structure InsertProvider where
  name : String
  title : String
  specialty : String
  profileImage : Option String
  facilityName : String
  distance : Option ℚ
  rating : ℚ
  reviewCount : ℕ
  nextAvailable : Option String
  insurances : List String
  isInNetwork : Option Bool
  hasVirtualVisits : Option Bool
  languages : List String
  about : String
  education : List EducationEntry
  certifications : List CertificationEntry
  officeAddress : OfficeAddress
  officePhone : String
  officeHours : List (String × String)
  acceptingNewPatients : Option Bool
  isSpanishSpeaking : Option Bool
deriving DecidableEq

/-- Stored provider row (`Provider` select type of the `providers` table):
nullable columns are `Option`. -/
structure Provider where
  id : ℕ
  name : String
  title : String
  specialty : String
  profileImage : Option String
  facilityName : String
  distance : Option ℚ
  rating : ℚ
  reviewCount : ℕ
  nextAvailable : Option String
  insurances : Option (List String)
  isInNetwork : Option Bool
  hasVirtualVisits : Option Bool
  languages : Option (List String)
  about : String
  education : List EducationEntry
  certifications : List CertificationEntry
  officeAddress : OfficeAddress
  officePhone : String
  officeHours : List (String × String)
  acceptingNewPatients : Option Bool
  isSpanishSpeaking : Option Bool
deriving DecidableEq

/-- The spread `{ ...provider, id } as Provider` in `createProvider`. -/
def mkProvider (d : InsertProvider) (id : ℕ) : Provider :=
  { id := id
    name := d.name
    title := d.title
    specialty := d.specialty
    profileImage := d.profileImage
    facilityName := d.facilityName
    distance := d.distance
    rating := d.rating
    reviewCount := d.reviewCount
    nextAvailable := d.nextAvailable
    insurances := some d.insurances
    isInNetwork := d.isInNetwork
    hasVirtualVisits := d.hasVirtualVisits
    languages := some d.languages
    about := d.about
    education := d.education
    certifications := d.certifications
    officeAddress := d.officeAddress
    officePhone := d.officePhone
    officeHours := d.officeHours
    acceptingNewPatients := d.acceptingNewPatients
    isSpanishSpeaking := d.isSpanishSpeaking }

/-- Availability toggles of `providerFilterSchema`. -/
structure Availability where
  today : Bool
  thisWeek : Bool
  weekends : Bool
deriving DecidableEq

/-- Additional-flag toggles of `providerFilterSchema`. -/
structure AdditionalOpts where
  acceptingNewPatients : Bool
  virtualVisits : Bool
  spanishSpeaking : Bool
deriving DecidableEq

/-- Search filter (`ProviderFilter` in `shared/schema.ts`); `page`, `limit`
and `sort` have zod defaults so they are always present after validation. -/
structure ProviderFilter where
  searchQuery : Option String
  specialty : Option String
  zipCode : Option String
  radius : Option String
  insurance : Option String
  availability : Option Availability
  additional : Option AdditionalOpts
  page : ℕ
  limit : ℕ
  sort : String
deriving DecidableEq

/-- Substring test on character lists: some suffix of the haystack starts
with the needle. -/
def charsContain (needle : List Char) : List Char → Bool
  | [] => needle.isEmpty
  | c :: cs => needle.isPrefixOf (c :: cs) || charsContain needle cs

/-- JS `hay.includes(needle)` for strings. -/
def strIncludes (hay needle : String) : Bool :=
  charsContain needle.data hay.data

/-- JS `toLowerCase()`: lowercase every character (structural model of
`String.toLower`). -/
def strToLower (s : String) : String :=
  String.mk (s.data.map Char.toLower)

/-- The template string
``street, city, state zipCode`` built in the free-text filter. -/
def addressString (ad : OfficeAddress) : String :=
  ad.street ++ ", " ++ ad.city ++ ", " ++ ad.state ++ " " ++ ad.zipCode

/-- Free-text predicate of `searchProviders` (storage.ts lines 93-101), for a
query that has already been lowercased. -/
def textMatch (ql : String) (p : Provider) : Bool :=
  strIncludes (strToLower p.name) ql ||
  strIncludes (strToLower p.specialty) ql ||
  strIncludes (strToLower (addressString p.officeAddress)) ql ||
  strIncludes (strToLower p.about) ql ||
  (match p.insurances with
   | none => false
   | some here => here.any (fun i => strIncludes (strToLower i) ql))

/-- One availability token test: `p.nextAvailable` is non-null and its
lowercasing contains the token. -/
def tokenMatch (p : Provider) (t : String) : Bool :=
  match p.nextAvailable with
  | none => false
  | some s => strIncludes (strToLower s) t

/-- The check `p.nextAvailable && p.nextAvailable.toLowerCase().includes("today")`. -/
def todayPred (p : Provider) : Bool :=
  match p.nextAvailable with
  | none => false
  | some s => strIncludes (strToLower s) "today"

/-- The tomorrow-containment check used by the availability comparator. -/
def tomorrowPred (p : Provider) : Bool :=
  match p.nextAvailable with
  | none => false
  | some s => strIncludes (strToLower s) "tomorrow"

/-- The `thisWeek` filter predicate (storage.ts lines 126-136). -/
def weekPred (p : Provider) : Bool :=
  match p.nextAvailable with
  | none => false
  | some s =>
    strIncludes (strToLower s) "today" ||
    strIncludes (strToLower s) "tomorrow" ||
    strIncludes (strToLower s) "monday" ||
    strIncludes (strToLower s) "tuesday" ||
    strIncludes (strToLower s) "wednesday" ||
    strIncludes (strToLower s) "thursday" ||
    strIncludes (strToLower s) "friday"

/-- The `weekends` filter predicate (storage.ts lines 139-144). -/
def weekendPred (p : Provider) : Bool :=
  match p.nextAvailable with
  | none => false
  | some s =>
    strIncludes (strToLower s) "saturday" ||
    strIncludes (strToLower s) "sunday"

/-- Every substring token recognized by the three availability checks. -/
def availTokens : List String :=
  ["today", "tomorrow", "monday", "tuesday", "wednesday", "thursday",
   "friday", "saturday", "sunday"]

/-- Free-text step of `searchProviders`: the guard
`filter.searchQuery && filter.searchQuery !== ""` skips the filter for an
absent or empty query; otherwise the query is lowercased once and matched. -/
def textStep (sq : Option String) (l : List Provider) : List Provider :=
  match sq with
  | none => l
  | some q => if q = "" then l else l.filter (fun p => textMatch (strToLower q) p)

/-- Specialty step: exact equality of lowercasings. -/
def specStep (sp : Option String) (l : List Provider) : List Provider :=
  match sp with
  | none => l
  | some v =>
    if v = "" then l
    else l.filter (fun p => decide (strToLower p.specialty = strToLower v))

/-- Insurance step: `p.insurances && p.insurances.some (i => i.toLowerCase() === ...)`. -/
def insStep (ins : Option String) (l : List Provider) : List Provider :=
  match ins with
  | none => l
  | some v =>
    if v = "" then l
    else l.filter (fun p =>
      match p.insurances with
      | none => false
      | some here => here.any (fun i => decide (strToLower i = strToLower v)))

/-- Availability step: the three toggles each intersect with the prior set. -/
def availStep (av : Option Availability) (l : List Provider) : List Provider :=
  match av with
  | none => l
  | some a =>
    let l1 := if a.today then l.filter todayPred else l
    let l2 := if a.thisWeek then l1.filter weekPred else l1
    if a.weekends then l2.filter weekendPred else l2

/-- Additional-flag step: accepting-new-patients, virtual visits, Spanish-speaking. -/
def addlStep (ad : Option AdditionalOpts) (l : List Provider) : List Provider :=
  match ad with
  | none => l
  | some a =>
    let l1 := if a.acceptingNewPatients
      then l.filter (fun p => p.acceptingNewPatients.getD false) else l
    let l2 := if a.virtualVisits
      then l1.filter (fun p => p.hasVirtualVisits.getD false) else l1
    if a.spanishSpeaking
      then l2.filter (fun p =>
        match p.languages with
        | none => false
        | some ls => ls.any (fun x => decide (strToLower x = "spanish")))
      else l2

/-- The `filteredProviders` value of `searchProviders` before sorting and
pagination: the five filter stages applied in source order. -/
def searchFiltered (f : ProviderFilter) (l : List Provider) : List Provider :=
  addlStep f.additional
    (availStep f.availability
      (insStep f.insurance
        (specStep f.specialty
          (textStep f.searchQuery l))))

/-- Pointwise version of the free-text stage condition. -/
def textOk (sq : Option String) (p : Provider) : Bool :=
  match sq with
  | none => true
  | some q => if q = "" then true else textMatch (strToLower q) p

/-- Pointwise version of the specialty stage condition. -/
def specOk (sp : Option String) (p : Provider) : Bool :=
  match sp with
  | none => true
  | some v =>
    if v = "" then true else decide (strToLower p.specialty = strToLower v)

/-- Pointwise version of the insurance stage condition. -/
def insOk (ins : Option String) (p : Provider) : Bool :=
  match ins with
  | none => true
  | some v =>
    if v = "" then true
    else
      match p.insurances with
      | none => false
      | some here => here.any (fun i => decide (strToLower i = strToLower v))

/-- Pointwise version of the availability stage condition. -/
def availOk (av : Option Availability) (p : Provider) : Bool :=
  match av with
  | none => true
  | some a =>
    (!a.today || todayPred p) && (!a.thisWeek || weekPred p) &&
      (!a.weekends || weekendPred p)

/-- Pointwise version of the additional-flag stage condition. -/
def addlOk (ad : Option AdditionalOpts) (p : Provider) : Bool :=
  match ad with
  | none => true
  | some a =>
    (!a.acceptingNewPatients || p.acceptingNewPatients.getD false) &&
    (!a.virtualVisits || p.hasVirtualVisits.getD false) &&
    (!a.spanishSpeaking ||
      (match p.languages with
       | none => false
       | some ls => ls.any (fun x => decide (strToLower x = "spanish"))))

/-- Integer comparator value on the (today, tomorrow) containment keys, as in
the `availability` branch of `sortProviders`. -/
def keyCmp (aT aTm bT bTm : Bool) : Int :=
  let aTi : Int := if aT then 1 else 0
  let bTi : Int := if bT then 1 else 0
  if aTi ≠ bTi then bTi - aTi
  else
    let aTmi : Int := if aTm then 1 else 0
    let bTmi : Int := if bTm then 1 else 0
    bTmi - aTmi

/-- The `availability` comparator of `sortProviders` (storage.ts lines 218-226). -/
def availCmp (a b : Provider) : Int :=
  keyCmp (todayPred a) (tomorrowPred a) (todayPred b) (tomorrowPred b)

/-- The `relevance` score `rating * Math.log(reviewCount + 1)`. -/
noncomputable def relevanceScore (p : Provider) : ℝ :=
  (p.rating : ℝ) * Real.log ((p.reviewCount : ℝ) + 1)

/-- The `relevance` comparator of `sortProviders` (storage.ts lines 230-233). -/
noncomputable def relCmp (a b : Provider) : ℝ :=
  relevanceScore b - relevanceScore a

/-- The `rating` comparator `(a, b) => b.rating - a.rating`. -/
def ratingCmp (a b : Provider) : ℚ :=
  b.rating - a.rating

/-- The `distance` comparator `(a, b) => (a.distance || 0) - (b.distance || 0)`. -/
def distCmp (a b : Provider) : ℚ :=
  a.distance.getD 0 - b.distance.getD 0

/-- Relation "a may come before b" induced by the availability comparator. -/
def availR (a b : Provider) : Prop := availCmp a b ≤ 0

/-- Relation "a may come before b" induced by the relevance comparator. -/
def relR (a b : Provider) : Prop := relCmp a b ≤ 0

/-- Relation "a may come before b" induced by the rating comparator. -/
def ratingR (a b : Provider) : Prop := ratingCmp a b ≤ 0

/-- Relation "a may come before b" induced by the distance comparator. -/
def distR (a b : Provider) : Prop := distCmp a b ≤ 0

instance : DecidableRel availR := fun a b => Int.decLe (availCmp a b) 0

noncomputable instance : DecidableRel relR := fun a b => Real.decidableLE (relCmp a b) 0

instance : DecidableRel ratingR := fun a b => inferInstanceAs (Decidable (ratingCmp a b ≤ 0))

instance : DecidableRel distR := fun a b => inferInstanceAs (Decidable (distCmp a b ≤ 0))

/-- The `sortProviders` helper: a stable sort of a copy of the list under the
comparator selected by the `sort` string; `relevance` is also the default. -/
noncomputable def sortProviders (l : List Provider) (sort : String) : List Provider :=
  if sort = "distance" then List.insertionSort distR l
  else if sort = "rating" then List.insertionSort ratingR l
  else if sort = "availability" then List.insertionSort availR l
  else List.insertionSort relR l

/-- JS `Array.prototype.slice (start, stop)` for non-negative indices. -/
def jsSlice (l : List Provider) (start stop : ℕ) : List Provider :=
  (l.drop start).take (stop - start)

/-- The `MemStorage` state relevant to providers: the `Map` as an association
list in insertion order, plus the id counter. -/
structure MemStorage where
  providers : List (ℕ × Provider)
  currentProviderId : ℕ

/-- JS `Map.set`: replace the value at an existing key in place, otherwise
append the new entry at the end. -/
def mapSet (m : List (ℕ × Provider)) (k : ℕ) (v : Provider) : List (ℕ × Provider) :=
  match m with
  | [] => [(k, v)]
  | e :: es => if e.1 = k then (k, v) :: es else e :: mapSet es k v

/-- `Array.from(this.providers.values())`. -/
def storeValues (s : MemStorage) : List Provider :=
  s.providers.map (fun e => e.2)

/-- The constructor state before `seedProviders` runs: empty map, counter 1. -/
def initialStore : MemStorage :=
  { providers := [], currentProviderId := 1 }

/-- `createProvider`: take the next id, store `{ ...provider, id }`, return it. -/
def createProvider (s : MemStorage) (d : InsertProvider) : Provider × MemStorage :=
  let id := s.currentProviderId
  let p := mkProvider d id
  (p, { providers := mapSet s.providers id p, currentProviderId := id + 1 })

/-- The seeding loop of the constructor: `createProvider` on each seed record. -/
def seedStore (seedData : List InsertProvider) : MemStorage :=
  seedData.foldl (fun s d => (createProvider s d).2) initialStore

/-- `getProvider`: `Map.get`, i.e. the value at the key, or undefined. -/
def getProvider (s : MemStorage) (id : ℕ) : Option Provider :=
  (s.providers.find? (fun e => decide (e.1 = id))).map (fun e => e.2)

/-- Result shape `{ providers, total, location }` of the list and search calls. -/
structure SearchResult where
  providers : List Provider
  total : ℕ
  location : String
deriving DecidableEq

/-- `getProviders`: sort everything, slice `[(page-1)*limit, (page-1)*limit + limit)`,
report the unfiltered count. -/
noncomputable def getProviders (s : MemStorage) (page limit : ℕ) (sort : String) :
    SearchResult :=
  let allProviders := storeValues s
  let sorted := sortProviders allProviders sort
  let start := (page - 1) * limit
  { providers := jsSlice sorted start (start + limit)
    total := allProviders.length
    location := "New York, NY" }

/-- `searchProviders`: filter, sort, paginate; the total is the filtered
count before pagination; the location echoes a non-empty zip code. -/
noncomputable def searchProviders (s : MemStorage) (f : ProviderFilter) :
    SearchResult :=
  let filtered := searchFiltered f (storeValues s)
  let sorted := sortProviders filtered f.sort
  let start := (f.page - 1) * f.limit
  { providers := jsSlice sorted start (start + f.limit)
    total := filtered.length
    location :=
      match f.zipCode with
      | none => "New York, NY"
      | some z => if z = "" then "New York, NY" else "Area near " ++ z }

/-- A small concrete provider record used by the concrete instantiations. -/
def dummyP : Provider :=
  { id := 1
    name := "Dr. A"
    title := "MD"
    specialty := "Cardiology"
    profileImage := none
    facilityName := "Clinic"
    distance := none
    rating := 4
    reviewCount := 10
    nextAvailable := none
    insurances := some ["Aetna"]
    isInNetwork := some true
    hasVirtualVisits := some false
    languages := some ["English"]
    about := ""
    education := []
    certifications := []
    officeAddress :=
      { street := "1 Main St", city := "New York", state := "NY",
        zipCode := "10001", latitude := none, longitude := none }
    officePhone := ""
    officeHours := []
    acceptingNewPatients := some true
    isSpanishSpeaking := some true }

/-- A small concrete insert payload used by the concrete instantiations. -/
def dummyIns : InsertProvider :=
  { name := "Dr. B"
    title := "MD"
    specialty := "Dermatology"
    profileImage := none
    facilityName := "Clinic"
    distance := none
    rating := 5
    reviewCount := 1
    nextAvailable := none
    insurances := ["Cigna"]
    isInNetwork := none
    hasVirtualVisits := none
    languages := ["English"]
    about := ""
    education := []
    certifications := []
    officeAddress :=
      { street := "2 Main St", city := "New York", state := "NY",
        zipCode := "10002", latitude := none, longitude := none }
    officePhone := ""
    officeHours := []
    acceptingNewPatients := none
    isSpanishSpeaking := none }

/-- Reachable-state invariant of `MemStorage`: every stored key is below the
id counter (true initially and preserved by `createProvider`). -/
def storeInv (s : MemStorage) : Prop :=
  ∀ e ∈ s.providers, e.1 < s.currentProviderId

/-- A one-provider store for concrete instantiations. -/
def store1 : MemStorage :=
  { providers := [(1, dummyP)], currentProviderId := 2 }

/-- A filter with no predicates at all. -/
def fEmptyQuery : ProviderFilter :=
  { searchQuery := none, specialty := none, zipCode := none, radius := none,
    insurance := none, availability := none, additional := none,
    page := 1, limit := 10, sort := "relevance" }

/-- A filter selecting specialty Cardiology and insurance Aetna. -/
def fCardAetna : ProviderFilter :=
  { searchQuery := none, specialty := some "Cardiology", zipCode := none,
    radius := none, insurance := some "Aetna", availability := none,
    additional := none, page := 1, limit := 10, sort := "availability" }

/-- A 25-provider store for the pagination example. -/
def s25 : MemStorage :=
  { providers := (List.range 25).map (fun n => (n + 1, dummyP)),
    currentProviderId := 26 }

/-- A provider whose next-available text matches no recognized token. -/
def pNoTok : Provider :=
  { dummyP with nextAvailable := some "Next month, 9:00 AM" }

/-- A provider available today (and not tomorrow). -/
def cxToday : Provider :=
  { dummyP with nextAvailable := some "Today, 2:30 PM" }

/-- A provider whose availability text contains both today and tomorrow. -/
def cxTodayTomorrow : Provider :=
  { dummyP with nextAvailable := some "Today or tomorrow" }

/-- A provider with a negative rating and no reviews. -/
def cxNeg0 : Provider :=
  { dummyP with rating := -1, reviewCount := 0 }

/-- A provider with the same negative rating and one review. -/
def cxNeg1 : Provider :=
  { dummyP with rating := -1, reviewCount := 1 }

/-- A provider with no reviews. -/
def pW0 : Provider :=
  { dummyP with reviewCount := 0 }

/-- Concrete score-monotonicity base point. -/
def pW1 : Provider :=
  { dummyP with rating := 2, reviewCount := 5 }

/-- Same review count as `pW1`, larger rating. -/
def pW2 : Provider :=
  { dummyP with rating := 3, reviewCount := 5 }

/-- Same rating as `pW1`, larger review count. -/
def pW3 : Provider :=
  { dummyP with rating := 2, reviewCount := 9 }

theorem mem_textStep {sq : Option String} {l : List Provider} {p : Provider} :
    p ∈ textStep sq l ↔ p ∈ l ∧ textOk sq p = true := by
  cases sq with
  | none => simp [textStep, textOk]
  | some q =>
    by_cases h : q = "" <;> simp [textStep, textOk, h, List.mem_filter]

theorem mem_specStep {sp : Option String} {l : List Provider} {p : Provider} :
    p ∈ specStep sp l ↔ p ∈ l ∧ specOk sp p = true := by
  cases sp with
  | none => simp [specStep, specOk]
  | some v =>
    by_cases h : v = "" <;> simp [specStep, specOk, h, List.mem_filter]

theorem mem_insStep {ins : Option String} {l : List Provider} {p : Provider} :
    p ∈ insStep ins l ↔ p ∈ l ∧ insOk ins p = true := by
  cases ins with
  | none => simp [insStep, insOk]
  | some v =>
    by_cases h : v = "" <;> simp [insStep, insOk, h, List.mem_filter]

theorem mem_availStep {av : Option Availability} {l : List Provider} {p : Provider} :
    p ∈ availStep av l ↔ p ∈ l ∧ availOk av p = true := by
  cases av with
  | none => simp [availStep, availOk]
  | some a =>
    cases h1 : a.today <;> cases h2 : a.thisWeek <;> cases h3 : a.weekends <;>
      simp [availStep, availOk, h1, h2, h3, List.mem_filter, and_assoc] <;>
      tauto

theorem mem_addlStep {ad : Option AdditionalOpts} {l : List Provider} {p : Provider} :
    p ∈ addlStep ad l ↔ p ∈ l ∧ addlOk ad p = true := by
  cases ad with
  | none => simp [addlStep, addlOk]
  | some a =>
    cases h1 : a.acceptingNewPatients <;> cases h2 : a.virtualVisits <;>
      cases h3 : a.spanishSpeaking <;>
      simp [addlStep, addlOk, h1, h2, h3, List.mem_filter, and_assoc] <;>
      tauto

theorem mem_searchFiltered {f : ProviderFilter} {l : List Provider} {p : Provider} :
    p ∈ searchFiltered f l ↔
      p ∈ l ∧ textOk f.searchQuery p = true ∧ specOk f.specialty p = true ∧
        insOk f.insurance p = true ∧ availOk f.availability p = true ∧
        addlOk f.additional p = true := by
  simp only [searchFiltered, mem_addlStep, mem_availStep, mem_insStep,
    mem_specStep, mem_textStep]
  tauto

theorem keyCmp_trans : ∀ a1 a2 b1 b2 c1 c2 : Bool,
    keyCmp a1 a2 b1 b2 ≤ 0 → keyCmp b1 b2 c1 c2 ≤ 0 → keyCmp a1 a2 c1 c2 ≤ 0 := by
  decide

theorem keyCmp_total : ∀ a1 a2 b1 b2 : Bool,
    keyCmp a1 a2 b1 b2 ≤ 0 ∨ keyCmp b1 b2 a1 a2 ≤ 0 := by
  decide

instance : IsTrans Provider availR :=
  ⟨fun _ _ _ hab hbc => keyCmp_trans _ _ _ _ _ _ hab hbc⟩

instance : IsTotal Provider availR :=
  ⟨fun _ _ => keyCmp_total _ _ _ _⟩

instance : IsTrans Provider relR :=
  ⟨fun a b c hab hbc => by
    unfold relR relCmp at hab hbc ⊢
    linarith⟩

instance : IsTotal Provider relR :=
  ⟨fun a b => by
    unfold relR relCmp
    rcases le_total (relevanceScore a) (relevanceScore b) with h | h
    · right; linarith
    · left; linarith⟩

theorem sortProviders_relevance (l : List Provider) :
    sortProviders l "relevance" = List.insertionSort relR l := by
  rfl

theorem sortProviders_availability (l : List Provider) :
    sortProviders l "availability" = List.insertionSort availR l := by
  rfl

theorem mem_sortProviders {l : List Provider} {srt : String} {p : Provider} :
    p ∈ sortProviders l srt ↔ p ∈ l := by
  unfold sortProviders
  split_ifs <;> exact List.mem_insertionSort _

theorem find?_mapSet (m : List (ℕ × Provider)) (k : ℕ) (v : Provider) :
    (mapSet m k v).find? (fun e => decide (e.1 = k)) = some (k, v) := by
  induction m with
  | nil => simp [mapSet]
  | cons e es ih =>
    by_cases h : e.1 = k
    · simp [mapSet, h]
    · simp [mapSet, h, List.find?, ih]

theorem mem_mapSet (m : List (ℕ × Provider)) (k : ℕ) (v : Provider) :
    (k, v) ∈ mapSet m k v := by
  induction m with
  | nil => simp [mapSet]
  | cons e es ih =>
    by_cases h : e.1 = k <;> simp [mapSet, h, ih]

theorem mapSet_of_forall_ne {m : List (ℕ × Provider)} {k : ℕ} (v : Provider)
    (h : ∀ e ∈ m, e.1 ≠ k) : mapSet m k v = m ++ [(k, v)] := by
  induction m with
  | nil => simp [mapSet]
  | cons e es ih =>
    have he : e.1 ≠ k := h e (by simp)
    simp only [mapSet, he, if_false]
    rw [ih (fun x hx => h x (by simp [hx]))]
    simp


/-- C7: `createProvider` assigns sequential ids: in a fresh store (the
constructor state before seeding) the first created record gets id 1, each
subsequent creation returns the previous id plus one, and the record stored
and returned is the input data together with that id. -/
theorem createProvider_sequential_ids :
    (∀ d : InsertProvider, (createProvider initialStore d).1.id = 1)
    ∧ (∀ (s : MemStorage) (d e : InsertProvider),
        (createProvider (createProvider s d).2 e).1.id
          = (createProvider s d).1.id + 1)
    ∧ (∀ (s : MemStorage) (d : InsertProvider),
        (createProvider s d).1 = mkProvider d s.currentProviderId
        ∧ (s.currentProviderId, (createProvider s d).1)
            ∈ (createProvider s d).2.providers) := by
  refine ⟨fun d => rfl, fun s d e => rfl, fun s d => ⟨rfl, ?_⟩⟩
  exact mem_mapSet s.providers s.currentProviderId (mkProvider d s.currentProviderId)

/-- C8: `getProvider` returns the empty result exactly when no stored entry
has the requested id; no operation of the model can fail in any other way
(all operations are total functions). -/
theorem getProvider_not_found (s : MemStorage) (id : ℕ) :
    getProvider s id = none ↔ ∀ e ∈ s.providers, e.1 ≠ id := by
  unfold getProvider
  rw [Option.map_eq_none', List.find?_eq_none]
  simp

/-- C10: create/read round-trip: after `createProvider` returns a record with
some id, `getProvider` at that id returns exactly that record, which is the
insert data together with the assigned id. -/
theorem createProvider_getProvider_roundtrip (s : MemStorage) (d : InsertProvider) :
    getProvider (createProvider s d).2 (createProvider s d).1.id
      = some ((createProvider s d).1)
    ∧ (createProvider s d).1 = mkProvider d s.currentProviderId := by
  refine ⟨?_, rfl⟩
  show (((mapSet s.providers s.currentProviderId
      (mkProvider d s.currentProviderId)).find?
        (fun e => decide (e.1 = s.currentProviderId))).map (fun e => e.2)) = _
  rw [find?_mapSet]
  rfl

/-- C9: in every reachable store state, creating a new record appends it and
leaves every existing entry (its key, fields and position) unchanged; the
invariant that makes states reachable holds initially and is preserved.
Read operations take the state as a value and cannot modify it, and the
model offers no update or delete operation. -/
theorem createProvider_frame :
    (∀ (s : MemStorage) (d : InsertProvider), storeInv s →
      (createProvider s d).2.providers
        = s.providers ++ [(s.currentProviderId, mkProvider d s.currentProviderId)]
      ∧ (∀ e ∈ s.providers, e ∈ (createProvider s d).2.providers)
      ∧ storeInv (createProvider s d).2)
    ∧ storeInv initialStore := by
  constructor
  · intro s d hs
    have hne : ∀ e ∈ s.providers, e.1 ≠ s.currentProviderId :=
      fun e he => Nat.ne_of_lt (hs e he)
    have happ : (createProvider s d).2.providers
        = s.providers ++ [(s.currentProviderId, mkProvider d s.currentProviderId)] :=
      mapSet_of_forall_ne _ hne
    refine ⟨happ, ?_, ?_⟩
    · intro e he
      rw [happ]
      exact List.mem_append_left _ he
    · intro e he
      rw [happ] at he
      rcases List.mem_append.mp he with h | h
      · exact Nat.lt_succ_of_lt (hs e h)
      · simp only [List.mem_singleton] at h
        rw [h]
        exact Nat.lt_succ_self _
  · intro e he
    simp [initialStore] at he

/-- Witness for C9 at the initial store and a concrete payload. -/
theorem createProvider_frame_witness :
    (createProvider initialStore dummyIns).2.providers
      = initialStore.providers ++ [(1, mkProvider dummyIns 1)] :=
  (createProvider_frame.1 initialStore dummyIns
    (by intro e he; simp [initialStore] at he)).1

/-- C1: for every store state and filter, a provider is in the
pre-pagination filtered set of `searchProviders` iff it is stored and passes
every requested predicate (free text, specialty, insurance, availability
toggles, additional flags); the returned total is the filtered count; and
with the text query absent or empty the text predicate excludes nobody. -/
theorem searchProviders_filter_characterization
    (s : MemStorage) (f : ProviderFilter) (p : Provider) :
    (p ∈ searchFiltered f (storeValues s) ↔
      p ∈ storeValues s ∧ textOk f.searchQuery p = true
        ∧ specOk f.specialty p = true ∧ insOk f.insurance p = true
        ∧ availOk f.availability p = true ∧ addlOk f.additional p = true)
    ∧ (searchProviders s f).total = (searchFiltered f (storeValues s)).length
    ∧ ((f.searchQuery = none ∨ f.searchQuery = some "") →
        textOk f.searchQuery p = true) := by
  refine ⟨mem_searchFiltered, rfl, ?_⟩
  rintro (h | h) <;> simp [h, textOk]

/-- Witness for C1 at a concrete store, filter without text query, and
provider. -/
theorem searchProviders_filter_characterization_witness :
    textOk fEmptyQuery.searchQuery dummyP = true
    ∧ (searchProviders store1 fEmptyQuery).total
        = (searchFiltered fEmptyQuery (storeValues store1)).length :=
  ⟨(searchProviders_filter_characterization store1 fEmptyQuery dummyP).2.2
      (Or.inl rfl),
   (searchProviders_filter_characterization store1 fEmptyQuery dummyP).2.1⟩

/-- C2: with a non-empty specialty filter every returned provider's
specialty equals it up to lowercasing, and with a non-empty insurance filter
every returned provider lists some insurance equal to it up to lowercasing. -/
theorem searchProviders_specialty_insurance (s : MemStorage) (f : ProviderFilter) :
    (∀ sp, f.specialty = some sp → sp ≠ "" →
      ∀ p ∈ (searchProviders s f).providers,
        strToLower p.specialty = strToLower sp)
    ∧ (∀ ins, f.insurance = some ins → ins ≠ "" →
      ∀ p ∈ (searchProviders s f).providers,
        ∃ here, p.insurances = some here
          ∧ ∃ i ∈ here, strToLower i = strToLower ins) := by
  have hpage : ∀ p ∈ (searchProviders s f).providers,
      p ∈ searchFiltered f (storeValues s) := by
    intro p hp
    have h1 : p ∈ sortProviders (searchFiltered f (storeValues s)) f.sort := by
      have h2 := List.take_subset _ _ hp
      exact List.drop_subset _ _ h2
    exact mem_sortProviders.mp h1
  constructor
  · intro sp hsp hne p hp
    have hf := (mem_searchFiltered.mp (hpage p hp)).2.2.1
    rw [hsp] at hf
    simpa [specOk, hne] using hf
  · intro ins hins hne p hp
    have hf := (mem_searchFiltered.mp (hpage p hp)).2.2.2.1
    rw [hins] at hf
    simp only [insOk, hne, if_false] at hf
    cases hpi : p.insurances with
    | none => rw [hpi] at hf; simp at hf
    | some here =>
      rw [hpi] at hf
      refine ⟨here, rfl, ?_⟩
      simpa using hf

/-- Witness for C2 at a concrete store and filter. -/
theorem searchProviders_specialty_insurance_witness :
    strToLower dummyP.specialty = strToLower "Cardiology"
    ∧ ∃ here, dummyP.insurances = some here
        ∧ ∃ i ∈ here, strToLower i = strToLower "Aetna" :=
  ⟨(searchProviders_specialty_insurance store1 fCardAetna).1 "Cardiology" rfl
      (by decide) dummyP (by decide),
   (searchProviders_specialty_insurance store1 fCardAetna).2 "Aetna" rfl
      (by decide) dummyP (by decide)⟩

/-- C3: for page at least 1 and positive limit, `getProviders` returns at
most `limit` providers, exactly the slice
`[(page-1)*limit, page*limit)` of the sorted whole collection, and a total
equal to the full unfiltered collection size. -/
theorem getProviders_pagination (s : MemStorage) (page limit : ℕ) (srt : String)
    (hpage : 1 ≤ page) (hlim : 0 < limit) :
    (getProviders s page limit srt).providers.length ≤ limit
    ∧ (getProviders s page limit srt).providers
        = ((sortProviders (storeValues s) srt).drop ((page - 1) * limit)).take limit
    ∧ (getProviders s page limit srt).total = (storeValues s).length := by
  refine ⟨?_, ?_, rfl⟩
  · show (jsSlice _ _ _).length ≤ limit
    unfold jsSlice
    simp only [List.length_take]
    omega
  · show jsSlice _ _ _ = _
    unfold jsSlice
    rw [Nat.add_sub_cancel_left]

/-- Witness for C3: the spec's example, page 2 and limit 10 on a 25-item
store give the sorted items 11 through 20 and total 25. -/
theorem getProviders_pagination_witness :
    1 ≤ 2 ∧ 0 < 10
    ∧ (getProviders s25 2 10 "rating").providers
        = ((sortProviders (storeValues s25) "rating").drop 10).take 10
    ∧ (getProviders s25 2 10 "rating").total = 25 := by
  refine ⟨by decide, by decide,
    (getProviders_pagination s25 2 10 "rating" (by decide) (by decide)).2.1, ?_⟩
  rw [(getProviders_pagination s25 2 10 "rating" (by decide) (by decide)).2.2]
  simp [s25, storeValues]

/-- C4 counterexample: at the fixed rating -1, raising the review count from
0 to 1 strictly lowers the relevance score, so the score is not monotone
non-decreasing in the review count for every fixed rating. -/
theorem relevance_monotonicity_counterexample :
    cxNeg0.rating = cxNeg1.rating ∧ cxNeg0.reviewCount ≤ cxNeg1.reviewCount
    ∧ ¬ (relevanceScore cxNeg0 ≤ relevanceScore cxNeg1) := by
  refine ⟨rfl, by decide, ?_⟩
  have h0 : relevanceScore cxNeg0 = 0 := by
    unfold relevanceScore
    rw [show cxNeg0.rating = (-1 : ℚ) from rfl,
      show cxNeg0.reviewCount = 0 from rfl]
    norm_num
  have h1 : relevanceScore cxNeg1 = -Real.log 2 := by
    unfold relevanceScore
    rw [show cxNeg1.rating = (-1 : ℚ) from rfl,
      show cxNeg1.reviewCount = 1 from rfl]
    push_cast
    norm_num
  rw [h0, h1]
  have h2 := Real.log_pos (by norm_num : (1 : ℝ) < 2)
  intro h
  linarith

/-- C4 (amended): sorting with sort `relevance` orders providers in
descending order of `rating * ln (reviewCount + 1)`; the score is 0 whenever
the review count is 0; the score is monotone non-decreasing in rating at a
fixed review count; and monotone non-decreasing in the review count at a
fixed nonnegative rating. -/
theorem relevance_sort_characterization :
    (∀ l : List Provider, (sortProviders l "relevance").Pairwise
        (fun a b => relevanceScore b ≤ relevanceScore a))
    ∧ (∀ p : Provider, p.reviewCount = 0 → relevanceScore p = 0)
    ∧ (∀ p q : Provider, p.reviewCount = q.reviewCount → p.rating ≤ q.rating →
        relevanceScore p ≤ relevanceScore q)
    ∧ (∀ p q : Provider, p.rating = q.rating → 0 ≤ p.rating →
        p.reviewCount ≤ q.reviewCount → relevanceScore p ≤ relevanceScore q) := by
  refine ⟨?_, ?_, ?_, ?_⟩
  · intro l
    rw [sortProviders_relevance]
    refine (List.sorted_insertionSort relR l).imp ?_
    intro a b hab
    unfold relR relCmp at hab
    linarith
  · intro p hp
    unfold relevanceScore
    rw [hp]
    norm_num
  · intro p q hc hr
    unfold relevanceScore
    rw [hc]
    have hlog : 0 ≤ Real.log ((q.reviewCount : ℝ) + 1) :=
      Real.log_nonneg (le_add_of_nonneg_left (Nat.cast_nonneg _))
    exact mul_le_mul_of_nonneg_right (by exact_mod_cast hr) hlog
  · intro p q hr h0 hc
    unfold relevanceScore
    rw [hr]
    have hlog : Real.log ((p.reviewCount : ℝ) + 1)
        ≤ Real.log ((q.reviewCount : ℝ) + 1) := by
      apply Real.log_le_log (by positivity)
      have : (p.reviewCount : ℝ) ≤ (q.reviewCount : ℝ) := by exact_mod_cast hc
      linarith
    have hq0 : (0 : ℝ) ≤ (q.rating : ℝ) := by
      rw [← hr]
      exact_mod_cast h0
    exact mul_le_mul_of_nonneg_left hlog hq0

/-- Witness for C4 at concrete providers. -/
theorem relevance_sort_characterization_witness :
    relevanceScore pW0 = 0 ∧ relevanceScore pW1 ≤ relevanceScore pW2
    ∧ relevanceScore pW1 ≤ relevanceScore pW3 :=
  ⟨relevance_sort_characterization.2.1 pW0 rfl,
   relevance_sort_characterization.2.2.1 pW1 pW2 rfl (by decide),
   relevance_sort_characterization.2.2.2 pW1 pW3 rfl (by decide) (by decide)⟩

/-- C5: the availability stage keeps exactly the providers passing the
requested substring checks (today; today or tomorrow or a weekday name;
saturday or sunday), and a next-available value containing no recognized
token fails all three predicates. -/
theorem availability_filter_characterization
    (a : Availability) (l : List Provider) (p : Provider) :
    (p ∈ availStep (some a) l ↔
      p ∈ l ∧ (a.today = true → todayPred p = true)
        ∧ (a.thisWeek = true → weekPred p = true)
        ∧ (a.weekends = true → weekendPred p = true))
    ∧ ((∀ t ∈ availTokens, tokenMatch p t = false) →
        todayPred p = false ∧ weekPred p = false ∧ weekendPred p = false) := by
  constructor
  · rw [mem_availStep]
    cases h1 : a.today <;> cases h2 : a.thisWeek <;> cases h3 : a.weekends <;>
      simp [availOk, h1, h2, h3] <;> tauto
  · intro h
    have ht := h "today" (by simp [availTokens])
    have htm := h "tomorrow" (by simp [availTokens])
    have hmo := h "monday" (by simp [availTokens])
    have htu := h "tuesday" (by simp [availTokens])
    have hwe := h "wednesday" (by simp [availTokens])
    have hth := h "thursday" (by simp [availTokens])
    have hfr := h "friday" (by simp [availTokens])
    have hsa := h "saturday" (by simp [availTokens])
    have hsu := h "sunday" (by simp [availTokens])
    cases hna : p.nextAvailable with
    | none => simp [todayPred, weekPred, weekendPred, hna]
    | some str =>
      simp only [tokenMatch, hna] at ht htm hmo htu hwe hth hfr hsa hsu
      simp [todayPred, weekPred, weekendPred, hna, ht, htm, hmo, htu, hwe,
        hth, hfr, hsa, hsu]

/-- Witness for C5 at a provider whose availability text has no token. -/
theorem availability_filter_characterization_witness :
    todayPred pNoTok = false ∧ weekPred pNoTok = false
    ∧ weekendPred pNoTok = false :=
  (availability_filter_characterization ⟨true, true, true⟩ [] pNoTok).2
    (by decide)

/-- C6 counterexample: two providers that both contain "today" (a tie under
the claimed ordering) are reordered by the implementation because the
tomorrow tie-break also applies inside the today group. -/
theorem availability_sort_counterexample :
    todayPred cxToday = true ∧ todayPred cxTodayTomorrow = true
    ∧ sortProviders [cxToday, cxTodayTomorrow] "availability"
        = [cxTodayTomorrow, cxToday] := by
  decide

/-- C6 (amended): the availability sort puts every provider containing
"today" before every provider not containing it; at equal today-status
(inside the today group as well) providers containing "tomorrow" come before
those that do not; and pairs tied on both today- and tomorrow-status keep
their input order (stable sort). -/
theorem availability_sort_characterization :
    (∀ l : List Provider, (sortProviders l "availability").Pairwise
        (fun a b => (todayPred b = true → todayPred a = true)
          ∧ (todayPred a = todayPred b → tomorrowPred b = true →
              tomorrowPred a = true)))
    ∧ (∀ (a b : Provider) (l : List Provider), todayPred a = todayPred b →
        tomorrowPred a = tomorrowPred b → List.Sublist [a, b] l →
        List.Sublist [a, b] (sortProviders l "availability")) := by
  constructor
  · intro l
    rw [sortProviders_availability]
    refine (List.sorted_insertionSort availR l).imp ?_
    intro a b hab
    have hb : ∀ t1 t2 u1 u2 : Bool, keyCmp t1 t2 u1 u2 ≤ 0 →
        ((u1 = true → t1 = true) ∧ (t1 = u1 → u2 = true → t2 = true)) := by
      decide
    exact hb _ _ _ _ hab
  · intro a b l h1 h2 hsub
    rw [sortProviders_availability]
    refine List.pair_sublist_insertionSort ?_ hsub
    show availR a b
    unfold availR availCmp
    rw [h1, h2]
    have hrefl : ∀ t1 t2 : Bool, keyCmp t1 t2 t1 t2 ≤ 0 := by decide
    exact hrefl _ _

/-- Witness for C6 at a concrete tied pair. -/
theorem availability_sort_characterization_witness :
    List.Sublist [dummyP, dummyP] (sortProviders [dummyP, dummyP] "availability") :=
  availability_sort_characterization.2 dummyP dummyP [dummyP, dummyP] rfl rfl
    (List.Sublist.refl _)

end ProviderRegistry
